/-
Verification of the indexed document-store layer of the teaching-agent
application (repository layer: slides, sessions, users, transcriptions,
agents) against its natural-language specification.

The TypeScript repositories issue get/put/delete/list calls against a
single-key KV store.  Each repository's key namespaces are disjoint
(distinct fixed prefixes such as slide_order, course_slides, session,
active_session, email_idx, ...), and within one namespace the composite
key encodings are injective (positions are zero-padded to width 6, and
the padding alphabet contains no separator character), so each namespace
is modelled as a typed association map from the decoded key to the
stored value.  Values are modelled as typed records rather than JSON
strings: the code always round-trips records through JSON.stringify and
JSON.parse, which is value-preserving for the data involved.
ISO-8601 timestamps are modelled as natural-number millisecond counts
(the ISO encoding of a millisecond instant is injective and
order-preserving, and the code only ever compares or subtracts the
decoded getTime values).
-/
import Mathlib

/-! ## A small association-map theory standing for one KV key namespace -/

/-- Lookup in an association list, standing for kv.get on one namespace. -/
def kvGet [DecidableEq κ] (m : List (κ × α)) (k : κ) : Option α :=
  match m with
  | [] => none
  | (k', v) :: rest => if k' = k then some v else kvGet rest k

/-- Overwriting insert, standing for kv.put on one namespace. -/
def kvPut [DecidableEq κ] (m : List (κ × α)) (k : κ) (v : α) : List (κ × α) :=
  match m with
  | [] => [(k, v)]
  | (k', v') :: rest => if k' = k then (k, v) :: rest else (k', v') :: kvPut rest k v

/-- Deletion, standing for kv.delete on one namespace. -/
def kvDel [DecidableEq κ] (m : List (κ × α)) (k : κ) : List (κ × α) :=
  match m with
  | [] => []
  | (k', v') :: rest => if k' = k then kvDel rest k else (k', v') :: kvDel rest k

@[simp] theorem kvGet_nil [DecidableEq κ] (k : κ) : kvGet ([] : List (κ × α)) k = none := rfl

@[simp] theorem kvGet_put_self [DecidableEq κ] (m : List (κ × α)) (k : κ) (v : α) :
    kvGet (kvPut m k v) k = some v := by
  induction m with
  | nil => simp [kvGet, kvPut]
  | cons hd tl ih =>
    obtain ⟨k', v'⟩ := hd
    by_cases h : k' = k <;> simp [kvGet, kvPut, h, ih]

theorem kvGet_put_ne [DecidableEq κ] (m : List (κ × α)) (k k' : κ) (v : α) (h : k ≠ k') :
    kvGet (kvPut m k v) k' = kvGet m k' := by
  induction m with
  | nil => simp [kvGet, kvPut, h]
  | cons hd tl ih =>
    obtain ⟨k₀, v₀⟩ := hd
    by_cases h₀ : k₀ = k
    · subst h₀; simp [kvGet, kvPut, h]
    · simp only [kvPut, if_neg h₀, kvGet]
      by_cases h₁ : k₀ = k' <;> simp [h₁, ih]

@[simp] theorem kvGet_del_self [DecidableEq κ] (m : List (κ × α)) (k : κ) :
    kvGet (kvDel m k) k = none := by
  induction m with
  | nil => simp [kvDel]
  | cons hd tl ih =>
    obtain ⟨k', v'⟩ := hd
    by_cases h : k' = k <;> simp [kvGet, kvDel, h, ih]

theorem kvGet_del_ne [DecidableEq κ] (m : List (κ × α)) (k k' : κ) (h : k ≠ k') :
    kvGet (kvDel m k) k' = kvGet m k' := by
  induction m with
  | nil => simp [kvDel]
  | cons hd tl ih =>
    obtain ⟨k₀, v₀⟩ := hd
    by_cases h₀ : k₀ = k
    · subst h₀; simp [kvGet, kvDel, h, Ne.symm h, ih]
    · simp only [kvDel, if_neg h₀, kvGet]
      by_cases h₁ : k₀ = k' <;> simp [h₁, ih]

/-- Error kinds raised by the repository layer (src/utils/errors):
NotFoundError, ConflictError, ValidationError, each carrying a message. -/
inductive Err where
  | notFound (msg : String)
  | conflict (msg : String)
  | validation (msg : String)
deriving Repr, DecidableEq

/-- True exactly for a ConflictError result (used to state what error kind
an operation fails with). -/
def isConflictErr : Except Err α → Bool
  | .error (.conflict _) => true
  | _ => false

/-! ## Shared JS-semantics helpers -/

/-- Model of JavaScript string toLowerCase, used for email/username keys. -/
def jsToLower (s : String) : String := String.mk (s.data.map Char.toLower)

/-- Model of the check `!s || s.trim().length === 0`: the string trims to
empty exactly when every character is whitespace (the empty string included). -/
def trimmedEmpty (s : String) : Bool := s.data.all Char.isWhitespace

/-- Model of `array.splice(i, 0, x)`: insert at index i, clamped to the end
when i exceeds the length (JS splice semantics). -/
def jsSpliceInsert (l : List α) (i : Nat) (x : α) : List α :=
  l.take i ++ x :: l.drop i

/-- One step of a stable insertion sort: x is placed before the first
element it does not strictly exceed, so ties keep their original order,
matching the stability of JS Array.prototype.sort. -/
def insertStable (lt : α → α → Bool) (x : α) : List α → List α
  | [] => [x]
  | y :: ys => if lt y x then y :: insertStable lt x ys else x :: y :: ys

/-- Stable sort modelling JS Array.prototype.sort with a numeric comparator. -/
def stableSortBy (lt : α → α → Bool) (l : List α) : List α :=
  l.foldr (insertStable lt) []

/-- Lexicographic comparison of strings by code points (the order in which
the KV store returns keys under a common prefix). -/
def charListLt : List Char → List Char → Bool
  | [], [] => false
  | [], _ :: _ => true
  | _ :: _, [] => false
  | c :: cs, d :: ds =>
    if c.toNat < d.toNat then true
    else if d.toNat < c.toNat then false
    else charListLt cs ds

def strLt (s t : String) : Bool := charListLt s.data t.data

/-! ## Slide repository (src/repositories/slide.repository.ts)

A slide's key namespaces: primary records under slide:{slideId}; the
per-position index under course_slides:{courseId}:{order padded to width
6}, decoded here as the pair (courseId, order) — the padded encoding is
injective and, for positions below 10^6 (the spec's "width chosen to
exceed any realistic sequence length"), lexicographic key order equals
numeric order, so the per-course index is a map keyed by (courseId, order)
and its prefix scan enumerates ascending positions; the outline index
under outline_slides:{outlineNodeId}:{slideId} decoded as a pair; and the
materialized array under slide_order:{courseId}.

Payload-only fields of a slide (speakerNotes, layout, theme, visual aids,
provenance, ...) are carried by create and update but never read by any
operation modelled here; they are omitted from the record.  Content
blocks are opaque: only emptiness of the content array is inspected. -/

structure Slide where
  slideId : String
  courseId : String
  order : Nat
  title : String
  content : List String
  outlineNodeId : Option String
  createdAt : Nat
  updatedAt : Nat
deriving Repr, DecidableEq

structure CreateSlideInput where
  courseId : String
  order : Nat
  title : String
  content : List String
  outlineNodeId : Option String
deriving Repr, DecidableEq

structure SlideStore where
  slides : List (String × Slide)
  courseSlides : List ((String × Nat) × String)
  outlineSlides : List ((String × String) × String)
  slideOrder : List (String × List String)
deriving Repr, DecidableEq

/-- SlideRepository.getSlideOrder: the materialized array, empty when absent. -/
def getSlideOrder (s : SlideStore) (courseId : String) : List String :=
  (kvGet s.slideOrder courseId).getD []

/-- SlideRepository.setSlideOrder. -/
def setSlideOrder (s : SlideStore) (courseId : String) (ids : List String) : SlideStore :=
  { s with slideOrder := kvPut s.slideOrder courseId ids }

/-- SlideRepository.create.  The generated id and the clock are passed in
explicitly.  Note that only the new slide's record, its own per-position
index entry and the materialized array are written; no existing slide is
touched. -/
def slideCreate (s : SlideStore) (input : CreateSlideInput) (slideId : String)
    (now : Nat) : SlideStore × Except Err Slide :=
  if trimmedEmpty input.title then
    (s, .error (.validation "Slide title is required"))
  else if input.content = [] then
    (s, .error (.validation "Slide content is required"))
  else
    let slide : Slide :=
      { slideId := slideId, courseId := input.courseId, order := input.order,
        title := input.title, content := input.content,
        outlineNodeId := input.outlineNodeId, createdAt := now, updatedAt := now }
    let s := { s with slides := kvPut s.slides slideId slide }
    let s := { s with courseSlides := kvPut s.courseSlides (input.courseId, input.order) slideId }
    let s :=
      match input.outlineNodeId with
      | some nodeId => { s with outlineSlides := kvPut s.outlineSlides (nodeId, slideId) slideId }
      | none => s
    let ord := getSlideOrder s input.courseId
    let s := setSlideOrder s input.courseId (jsSpliceInsert ord input.order slideId)
    (s, .ok slide)

/-- SlideRepository.getById. -/
def slideGetById (s : SlideStore) (slideId : String) : Except Err Slide :=
  match kvGet s.slides slideId with
  | none => .error (.notFound ("Slide with ID " ++ slideId ++ " not found"))
  | some sl => .ok sl

/-- SlideRepository.listByCoursePrefix, the fallback listing: scan the
per-position index entries of the course in store key order (ascending
position), keep the first `limit` (default 100), fetch each slide,
skipping entries whose record is missing, and sort by the order field
(stable). -/
def listByCourseFallback (s : SlideStore) (courseId : String) (limit : Option Nat) :
    List Slide :=
  let entries := stableSortBy (fun a b => a.1.2 < b.1.2)
    (s.courseSlides.filter (fun e => e.1.1 = courseId))
  let entries := entries.take (limit.getD 100)
  let slides := entries.filterMap (fun e =>
    if e.2 = "" then none else kvGet s.slides e.2)
  stableSortBy (fun a b => a.order < b.order) slides

/-- SlideRepository.listByCourse: read the materialized array; when it is
empty fall back to the prefix scan; otherwise fetch the first `limit`
(default: all) ids in array order, skipping empty ids and ids whose
record is missing. -/
def listByCourse (s : SlideStore) (courseId : String) (limit : Option Nat) :
    List Slide :=
  let ord := getSlideOrder s courseId
  if ord = [] then listByCourseFallback s courseId limit
  else
    (ord.take (limit.getD ord.length)).filterMap (fun id =>
      if id = "" then none else kvGet s.slides id)

/-- SlideRepository.reorderAfterDelete: every remaining slide of the course
whose order exceeds the deleted position has its order decremented, its
record rewritten, its old per-position index entry deleted and a new one
written at the decremented position. -/
def reorderAfterDelete (s : SlideStore) (courseId : String) (deletedOrder : Nat) :
    SlideStore :=
  let slides := listByCourse s courseId none
  slides.foldl (fun s sl =>
    if deletedOrder < sl.order then
      let sl' := { sl with order := sl.order - 1 }
      let s := { s with slides := kvPut s.slides sl'.slideId sl' }
      let s := { s with courseSlides := kvDel s.courseSlides (courseId, sl'.order + 1) }
      { s with courseSlides := kvPut s.courseSlides (courseId, sl'.order) sl'.slideId }
    else s) s

/-- SlideRepository.delete: remove the record, its per-position index entry
(at its stored order), its outline index entry, splice it out of the
materialized array, then compact the remaining positions. -/
def slideDelete (s : SlideStore) (slideId : String) : SlideStore × Except Err Unit :=
  match slideGetById s slideId with
  | .error e => (s, .error e)
  | .ok slide =>
    let s := { s with slides := kvDel s.slides slideId }
    let s := { s with courseSlides := kvDel s.courseSlides (slide.courseId, slide.order) }
    let s :=
      match slide.outlineNodeId with
      | some nodeId => { s with outlineSlides := kvDel s.outlineSlides (nodeId, slideId) }
      | none => s
    let ord := getSlideOrder s slide.courseId
    let s := if slideId ∈ ord then setSlideOrder s slide.courseId (ord.erase slideId) else s
    (reorderAfterDelete s slide.courseId slide.order, .ok ())

/-- SlideRepository.getByCourseAndOrder: resolve the per-position index
entry, then the record. -/
def getByCourseAndOrder (s : SlideStore) (courseId : String) (order : Nat) :
    Except Err Slide :=
  match kvGet s.courseSlides (courseId, order) with
  | none => .error (.notFound ("Slide at position " ++ toString order ++
      " not found in course " ++ courseId))
  | some slideId =>
    if slideId = "" then
      .error (.notFound ("Slide at position " ++ toString order ++
        " not found in course " ++ courseId))
    else slideGetById s slideId

structure SlideOrderItem where
  slideId : String
  newOrder : Nat
deriving Repr, DecidableEq

/-- The validation pass of SlideRepository.reorder: every slide of the
batch must exist and belong to the course. -/
def reorderValidate (s : SlideStore) (courseId : String) :
    List SlideOrderItem → Except Err Unit
  | [] => .ok ()
  | item :: rest =>
    match slideGetById s item.slideId with
    | .error e => .error e
    | .ok slide =>
      if slide.courseId ≠ courseId then
        .error (.validation ("Slide " ++ item.slideId ++
          " does not belong to course " ++ courseId))
      else reorderValidate s courseId rest

/-- The mutation pass of SlideRepository.reorder: for each batch item,
delete the index entry at the slide's current order, store the slide with
the new order, and write a new index entry; the new positions are taken
as given, with no contiguity or duplicate check. -/
def reorderApply (s : SlideStore) (courseId : String) (now : Nat) :
    List SlideOrderItem → List Slide → SlideStore × Except Err (List Slide)
  | [], acc => (s, .ok acc)
  | item :: rest, acc =>
    match slideGetById s item.slideId with
    | .error e => (s, .error e)
    | .ok slide =>
      let s := { s with courseSlides := kvDel s.courseSlides (courseId, slide.order) }
      let slide := { slide with order := item.newOrder, updatedAt := now }
      let s := { s with slides := kvPut s.slides item.slideId slide }
      let s := { s with courseSlides := kvPut s.courseSlides (courseId, item.newOrder) item.slideId }
      reorderApply s courseId now rest (acc ++ [slide])

/-- SlideRepository.reorder: validate the batch, apply it, replace the
materialized array by the batch ids sorted by newOrder, and return the
updated slides sorted by order. -/
def slideReorder (s : SlideStore) (courseId : String) (items : List SlideOrderItem)
    (now : Nat) : SlideStore × Except Err (List Slide) :=
  match reorderValidate s courseId items with
  | .error e => (s, .error e)
  | .ok _ =>
    match reorderApply s courseId now items [] with
    | (s, .error e) => (s, .error e)
    | (s, .ok slides) =>
      let sorted := stableSortBy (fun a b => a.newOrder < b.newOrder) items
      let s := setSlideOrder s courseId (sorted.map (fun i => i.slideId))
      (s, .ok (stableSortBy (fun a b => a.order < b.order) slides))

/-! ## Session repository (src/repositories/session.repository.ts)

Key namespaces: session:{sessionId} for records;
student_sessions:{studentId}:{sessionId} and
course_sessions:{courseId}:{sessionId} as membership indexes (decoded as
pairs); active_session:{studentId}:{courseId} as the uniqueness claim for
the one active session per (student, course).

The session model (src/models/session.model.ts is only a type
declaration; its fields are reconstructed from every use in the
repository).  progress.currentSlideOrder and the visited/completed
entries are slide positions.  totalDuration accumulates
Math.floor((now - lastActivityAt)/1000), which can be negative if the
clock steps back, so it is an Int. -/

inductive SessionStatus where
  | active
  | paused
  | completed
deriving Repr, DecidableEq

structure SessionProgress where
  currentSlideOrder : Nat
  currentSlideId : String
  visitedSlides : List Nat
  completedSlides : List Nat
  totalSlides : Nat
  progressPercentage : Nat
deriving Repr, DecidableEq

structure Session where
  sessionId : String
  courseId : String
  studentId : String
  progress : SessionProgress
  startedAt : Nat
  lastActivityAt : Nat
  totalDuration : Int
  status : SessionStatus
  endedAt : Option Nat
  totalQuestions : Nat
  totalInteractions : Nat
  isPracticeMode : Bool
  notes : Option String
  createdAt : Nat
  updatedAt : Nat
deriving Repr, DecidableEq

structure CreateSessionInput where
  studentId : String
  courseId : String
  isPracticeMode : Option Bool
deriving Repr, DecidableEq

structure UpdateSessionProgressInput where
  currentSlideOrder : Nat
  currentSlideId : String
  action : String
deriving Repr, DecidableEq

structure UpdateSessionStatusInput where
  status : SessionStatus
deriving Repr, DecidableEq

structure SessionStore where
  sessions : List (String × Session)
  studentSessions : List ((String × String) × String)
  courseSessions : List ((String × String) × String)
  activeSession : List ((String × String) × String)
deriving Repr, DecidableEq

/-- SessionRepository.calculateProgress:
Math.round((completedSlides.length / totalSlides) * 100), 0 when
totalSlides is 0.  Math.round on the nonnegative quotient is modelled as
exact rational rounding half-up: round(100c/t) = (200c + t) / (2t) in
natural division. -/
def calculateProgress (completedSlides : List Nat) (totalSlides : Nat) : Nat :=
  if totalSlides = 0 then 0
  else (200 * completedSlides.length + totalSlides) / (2 * totalSlides)

/-- SessionRepository.getActiveSession: resolve the active-session claim;
an absent or empty id reports no session; a dangling id (record missing)
is healed by deleting the claim entry.  Returns the possibly-healed store. -/
def getActiveSession (s : SessionStore) (studentId courseId : String) :
    SessionStore × Option Session :=
  match kvGet s.activeSession (studentId, courseId) with
  | none => (s, none)
  | some sessionId =>
    if sessionId = "" then (s, none)
    else
      match kvGet s.sessions sessionId with
      | some sess => (s, some sess)
      | none =>
        ({ s with activeSession := kvDel s.activeSession (studentId, courseId) }, none)

/-- SessionRepository.create: fail with Conflict (naming the existing
session id) when an active session for (studentId, courseId) already
resolves; otherwise store a fresh active session and write its three
index entries, the active-session claim included. -/
def sessionCreate (s0 : SessionStore) (input : CreateSessionInput) (totalSlides : Nat)
    (sessionId : String) (now : Nat) : SessionStore × Except Err Session :=
  let healed := getActiveSession s0 input.studentId input.courseId
  match healed.2 with
  | some existing =>
    (healed.1, .error (.conflict
      ("Student already has an active session for this course: " ++ existing.sessionId)))
  | none =>
    let s := healed.1
    let sess : Session :=
      { sessionId := sessionId, courseId := input.courseId, studentId := input.studentId,
        progress :=
          { currentSlideOrder := 0, currentSlideId := "", visitedSlides := [],
            completedSlides := [], totalSlides := totalSlides, progressPercentage := 0 },
        startedAt := now, lastActivityAt := now, totalDuration := 0,
        status := .active, endedAt := none, totalQuestions := 0, totalInteractions := 0,
        isPracticeMode := input.isPracticeMode.getD false, notes := none,
        createdAt := now, updatedAt := now }
    let s := { s with sessions := kvPut s.sessions sessionId sess }
    let s := { s with studentSessions := kvPut s.studentSessions (input.studentId, sessionId) sessionId }
    let s := { s with courseSessions := kvPut s.courseSessions (input.courseId, sessionId) sessionId }
    let s := { s with activeSession := kvPut s.activeSession (input.studentId, input.courseId) sessionId }
    (s, .ok sess)

/-- The visited set after a progress update: the position is appended
unless already present. -/
def visitedAfter (sess : Session) (input : UpdateSessionProgressInput) : List Nat :=
  if input.currentSlideOrder ∈ sess.progress.visitedSlides then
    sess.progress.visitedSlides
  else sess.progress.visitedSlides ++ [input.currentSlideOrder]

/-- The completed set after a progress update: on action "complete" the
position is appended unless already present; otherwise unchanged. -/
def completedAfter (sess : Session) (input : UpdateSessionProgressInput) : List Nat :=
  if input.action = "complete" then
    if input.currentSlideOrder ∈ sess.progress.completedSlides then
      sess.progress.completedSlides
    else sess.progress.completedSlides ++ [input.currentSlideOrder]
  else sess.progress.completedSlides

/-- The session record as rewritten by SessionRepository.updateProgress
before the auto-completion check. -/
def progressedSession (sess : Session) (input : UpdateSessionProgressInput)
    (now : Nat) : Session :=
  { sess with
    progress :=
      { sess.progress with
        visitedSlides := visitedAfter sess input,
        completedSlides := completedAfter sess input,
        currentSlideOrder := input.currentSlideOrder,
        currentSlideId := input.currentSlideId,
        progressPercentage :=
          calculateProgress (completedAfter sess input) sess.progress.totalSlides },
    lastActivityAt := now,
    totalDuration := sess.totalDuration + ((now : Int) - (sess.lastActivityAt : Int)).fdiv 1000,
    updatedAt := now }

/-- SessionRepository.updateProgress: reject completed sessions; update
the visited and completed sets, position, percentage and timing; when the
completed set's length reaches totalSlides, mark the session completed,
stamp the end time and release the active-session claim; store the
record. -/
def sessionUpdateProgress (s0 : SessionStore) (sessionId : String)
    (input : UpdateSessionProgressInput) (now : Nat) : SessionStore × Except Err Session :=
  match kvGet s0.sessions sessionId with
  | none => (s0, .error (.notFound ("Session with ID " ++ sessionId ++ " not found")))
  | some sess =>
    if sess.status = .completed then
      (s0, .error (.validation "Cannot update progress for completed session"))
    else
      let sess := progressedSession sess input now
      let done := sess.progress.completedSlides.length = sess.progress.totalSlides
      let sess := if done then { sess with status := .completed, endedAt := some now } else sess
      let s := if done then
          { s0 with activeSession := kvDel s0.activeSession (sess.studentId, sess.courseId) }
        else s0
      ({ s with sessions := kvPut s.sessions sessionId sess }, .ok sess)

/-- SessionRepository.updateStatus: set the requested status
unconditionally (no check of the current status); on completed (when no
end time is stamped yet) stamp one and release the active-session claim;
on active refresh the activity time and re-establish the claim,
overwriting it; store the record. -/
def sessionUpdateStatus (s0 : SessionStore) (sessionId : String)
    (input : UpdateSessionStatusInput) (now : Nat) : SessionStore × Except Err Session :=
  match kvGet s0.sessions sessionId with
  | none => (s0, .error (.notFound ("Session with ID " ++ sessionId ++ " not found")))
  | some sess =>
    let sess := { sess with status := input.status, updatedAt := now }
    let hit := input.status = .completed ∧ sess.endedAt = none
    let pair :=
      if hit then
        ({ s0 with activeSession := kvDel s0.activeSession (sess.studentId, sess.courseId) },
         { sess with endedAt := some now })
      else (s0, sess)
    let s := pair.1
    let sess := pair.2
    let pair :=
      if input.status = .active then
        ({ s with activeSession := kvPut s.activeSession (sess.studentId, sess.courseId) sessionId },
         { sess with lastActivityAt := now })
      else (s, sess)
    let s := pair.1
    let sess := pair.2
    ({ s with sessions := kvPut s.sessions sessionId sess }, .ok sess)

/-- SessionRepository.resumeOrCreate: return the active session when one
resolves (isNew = false); otherwise create a fresh one (isNew = true). -/
def sessionResumeOrCreate (s0 : SessionStore) (input : CreateSessionInput)
    (totalSlides : Nat) (sessionId : String) (now : Nat) :
    SessionStore × Except Err (Session × Bool) :=
  let healed := getActiveSession s0 input.studentId input.courseId
  match healed.2 with
  | some sess => (healed.1, .ok (sess, false))
  | none =>
    match sessionCreate healed.1 input totalSlides sessionId now with
    | (s, .ok sess) => (s, .ok (sess, true))
    | (s, .error e) => (s, .error e)

/-! ## User repository (src/repositories/user.repository.ts)

Key namespaces: user:{userId}; email_idx:{email lowercased};
username_idx:{username lowercased}; role_idx:{role}:{userId} decoded as a
(role, userId) pair.  The optional profile payload is never read by the
modelled operations and is omitted. -/

inductive UserRole where
  | teacher
  | student
deriving Repr, DecidableEq

structure User where
  userId : String
  email : String
  username : String
  role : UserRole
  createdAt : Nat
  updatedAt : Nat
deriving Repr, DecidableEq

structure CreateUserInput where
  email : String
  username : String
  role : UserRole
deriving Repr, DecidableEq

structure UserStore where
  users : List (String × User)
  emailIdx : List (String × String)
  usernameIdx : List (String × String)
  roleIdx : List ((UserRole × String) × String)
deriving Repr, DecidableEq

/-- UserRepository.create: reject (ValidationError, not ConflictError)
when the lowercased email or username is already claimed by a truthy
index entry; otherwise store the user and write the three index entries. -/
def userCreate (s : UserStore) (input : CreateUserInput) (userId : String)
    (now : Nat) : UserStore × Except Err User :=
  let emailKey := jsToLower input.email
  let usernameKey := jsToLower input.username
  if (kvGet s.emailIdx emailKey).getD "" ≠ "" then
    (s, .error (.validation "Email already exists"))
  else if (kvGet s.usernameIdx usernameKey).getD "" ≠ "" then
    (s, .error (.validation "Username already exists"))
  else
    let user : User :=
      { userId := userId, email := input.email, username := input.username,
        role := input.role, createdAt := now, updatedAt := now }
    let s := { s with users := kvPut s.users userId user }
    let s := { s with emailIdx := kvPut s.emailIdx emailKey userId }
    let s := { s with usernameIdx := kvPut s.usernameIdx usernameKey userId }
    let s := { s with roleIdx := kvPut s.roleIdx (input.role, userId) userId }
    (s, .ok user)

/-- UserRepository.getById. -/
def userGetById (s : UserStore) (userId : String) : Except Err User :=
  match kvGet s.users userId with
  | none => .error (.notFound ("User with ID " ++ userId ++ " not found"))
  | some u => .ok u

/-- UserRepository.delete: remove the record and its email, username and
role index entries (keyed by the record's stored, lowercased values). -/
def userDelete (s : UserStore) (userId : String) : UserStore × Except Err Unit :=
  match kvGet s.users userId with
  | none => (s, .error (.notFound ("User with ID " ++ userId ++ " not found")))
  | some user =>
    let s := { s with users := kvDel s.users userId }
    let s := { s with emailIdx := kvDel s.emailIdx (jsToLower user.email) }
    let s := { s with usernameIdx := kvDel s.usernameIdx (jsToLower user.username) }
    let s := { s with roleIdx := kvDel s.roleIdx (user.role, userId) }
    (s, .ok ())

/-! ## Transcription repository (src/repositories/interaction.repository.ts,
TranscriptionRepository)

Key namespaces: transcription:{transcriptionId};
user_transcriptions:{userId}:{transcriptionId} decoded as a pair.  Both
are written with a KV expirationTtl.  The store is modelled WITHOUT
native TTL enforcement — the spec's worst case, which the defensive
sweep exists to compensate ("backends whose native TTL enforcement is
unavailable or lagged") — and each entry carries, next to its value, the
absolute deadline (in ms) that the last put requested, so that theorems
can speak about the lifetime a record was given.  Numeric payload fields
(fileSize, duration, confidence, processingTime) are opaque to the
modelled logic and carried as Nat. -/

inductive TranscriptionStatus where
  | processing
  | completed
  | failed
deriving Repr, DecidableEq

structure Transcription where
  transcriptionId : String
  userId : String
  originalFilename : String
  fileSize : Nat
  mimeType : String
  duration : Option Nat
  text : String
  confidence : Option Nat
  language : Option String
  status : TranscriptionStatus
  processingTime : Option Nat
  errorMessage : Option String
  purpose : Option String
  relatedEntityId : Option String
  relatedEntityType : Option String
  createdAt : Nat
  completedAt : Option Nat
  expiresAt : Nat
deriving Repr, DecidableEq

structure CreateTranscriptionInput where
  userId : String
  originalFilename : String
  fileSize : Nat
  mimeType : String
  language : Option String
  purpose : Option String
  relatedEntityId : Option String
  relatedEntityType : Option String
deriving Repr, DecidableEq

structure UpdateTranscriptionInput where
  text : Option String
  confidence : Option Nat
  language : Option String
  duration : Option Nat
  status : Option TranscriptionStatus
  processingTime : Option Nat
  errorMessage : Option String
deriving Repr, DecidableEq

/-- An entry of the transcription store: the value together with the
absolute expiry deadline (ms) requested by the put that wrote it. -/
structure TranscriptionStore where
  trans : List (String × (Transcription × Nat))
  userTrans : List ((String × String) × (String × Nat))
deriving Repr, DecidableEq

/-- The 24-hour TTL constant, in seconds. -/
def TTL_SECONDS : Nat := 86400

/-- TranscriptionRepository.create: stamp expiresAt = now + 24h and write
both the record and the owner-index entry with that full TTL. -/
def transcriptionCreate (s : TranscriptionStore) (input : CreateTranscriptionInput)
    (transcriptionId : String) (now : Nat) : TranscriptionStore × Except Err Transcription :=
  if input.userId = "" ∨ input.originalFilename = "" ∨ input.mimeType = "" then
    (s, .error (.validation "userId, originalFilename, and mimeType are required"))
  else
    let expiresAt := now + TTL_SECONDS * 1000
    let t : Transcription :=
      { transcriptionId := transcriptionId, userId := input.userId,
        originalFilename := input.originalFilename, fileSize := input.fileSize,
        mimeType := input.mimeType, duration := none, text := "",
        confidence := none, language := input.language, status := .processing,
        processingTime := none, errorMessage := none, purpose := input.purpose,
        relatedEntityId := input.relatedEntityId,
        relatedEntityType := input.relatedEntityType,
        createdAt := now, completedAt := none, expiresAt := expiresAt }
    let s := { s with trans := kvPut s.trans transcriptionId (t, now + TTL_SECONDS * 1000) }
    let idxVal := (transcriptionId, now + TTL_SECONDS * 1000)
    let s := { s with userTrans := kvPut s.userTrans (input.userId, transcriptionId) idxVal }
    (s, .ok t)

/-- TranscriptionRepository.getById. -/
def transcriptionGetById (s : TranscriptionStore) (transcriptionId : String) :
    Except Err Transcription :=
  match kvGet s.trans transcriptionId with
  | none => .error (.notFound
      ("Transcription with ID " ++ transcriptionId ++ " not found or expired"))
  | some (t, _) => .ok t

/-- The merged record written by TranscriptionRepository.update: each
update field falls back to the existing value; completedAt is stamped
when the update sets status to completed; expiresAt is spread through
unchanged. -/
def mergedTranscription (t : Transcription) (updates : UpdateTranscriptionInput)
    (now : Nat) : Transcription :=
  { t with
    text := updates.text.getD t.text,
    confidence := updates.confidence <|> t.confidence,
    language := updates.language <|> t.language,
    duration := updates.duration <|> t.duration,
    status := updates.status.getD t.status,
    processingTime := updates.processingTime <|> t.processingTime,
    errorMessage := updates.errorMessage <|> t.errorMessage,
    completedAt := if updates.status = some .completed then some now else t.completedAt }

/-- The remaining TTL recomputed by TranscriptionRepository.update:
Math.max(0, Math.floor((expiresAt - Date.now()) / 1000)), in seconds. -/
def remainingTtl (expiresAt now : Nat) : Nat :=
  (max 0 (((expiresAt : Int) - (now : Int)).fdiv 1000)).toNat

/-- TranscriptionRepository.update: merge the fields, keep expiresAt, and
rewrite the record with the recomputed remaining TTL (not a fresh full
TTL). -/
def transcriptionUpdate (s : TranscriptionStore) (transcriptionId : String)
    (updates : UpdateTranscriptionInput) (now : Nat) :
    TranscriptionStore × Except Err Transcription :=
  match transcriptionGetById s transcriptionId with
  | .error e => (s, .error e)
  | .ok t =>
    let t' := mergedTranscription t updates now
    let ttl := remainingTtl t.expiresAt now
    ({ s with trans := kvPut s.trans transcriptionId (t', now + ttl * 1000) }, .ok t')

/-- TranscriptionRepository.delete: remove the record and its owner-index
entry (keyed by the record's stored userId). -/
def transcriptionDelete (s : TranscriptionStore) (transcriptionId : String) :
    TranscriptionStore × Except Err Unit :=
  match transcriptionGetById s transcriptionId with
  | .error e => (s, .error e)
  | .ok t =>
    let s := { s with trans := kvDel s.trans transcriptionId }
    let s := { s with userTrans := kvDel s.userTrans (t.userId, transcriptionId) }
    (s, .ok ())

/-- One step of the cleanup sweep: fetch the key; when the record's
expiresAt is at or before the current time, delete it (and its owner
index) through TranscriptionRepository.delete, keyed by the record's
stored transcriptionId. -/
def cleanupStep (now : Nat) (s : TranscriptionStore) (key : String) : TranscriptionStore :=
  match kvGet s.trans key with
  | none => s
  | some (t, _) => if t.expiresAt ≤ now then (transcriptionDelete s t.transcriptionId).1 else s

/-- TranscriptionRepository.cleanupExpired: list up to 1000 record keys
(store key order), and delete every listed record whose expiresAt is at
or before the current time, along with its owner-index entry. -/
def cleanupExpired (s : TranscriptionStore) (now : Nat) : TranscriptionStore :=
  let keys := (stableSortBy strLt (s.trans.map (fun e => e.1))).take 1000
  keys.foldl (cleanupStep now) s

/-! ## Agent repository (src/repositories/interaction.repository.ts,
AgentRepository)

Key namespaces: agent:{agentId}; course_agent:{courseId} (one agent per
course); teacher_agents:{teacherId}:{agentId};
elevenlabs_agent:{elevenLabsAgentId} mapping the external id to ours.
Only the index-driven lookups are modelled; the large generated payload
(system prompt, personality, course context) is never read by them and
is omitted from the record. -/

structure Agent where
  agentId : String
  courseId : String
  teacherId : String
  elevenLabsAgentId : String
  status : String
deriving Repr, DecidableEq

structure AgentStore where
  agents : List (String × Agent)
  courseAgent : List (String × String)
  teacherAgents : List ((String × String) × String)
  elevenLabsAgent : List (String × String)
deriving Repr, DecidableEq

/-- AgentRepository.getById. -/
def agentGetById (s : AgentStore) (agentId : String) : Except Err Agent :=
  match kvGet s.agents agentId with
  | none => .error (.notFound ("Agent with ID " ++ agentId ++ " not found"))
  | some a => .ok a

/-- AgentRepository.getByCourse: resolve course_agent:{courseId}; an
absent or empty entry reports null; a dangling id is healed by deleting
the index entry and reporting null. -/
def agentGetByCourse (s : AgentStore) (courseId : String) :
    AgentStore × Option Agent :=
  match kvGet s.courseAgent courseId with
  | none => (s, none)
  | some agentId =>
    if agentId = "" then (s, none)
    else
      match kvGet s.agents agentId with
      | some a => (s, some a)
      | none => ({ s with courseAgent := kvDel s.courseAgent courseId }, none)

/-- AgentRepository.getByElevenLabsId: the same healing pattern on the
elevenlabs_agent mapping. -/
def agentGetByElevenLabsId (s : AgentStore) (elevenLabsAgentId : String) :
    AgentStore × Option Agent :=
  match kvGet s.elevenLabsAgent elevenLabsAgentId with
  | none => (s, none)
  | some agentId =>
    if agentId = "" then (s, none)
    else
      match kvGet s.agents agentId with
      | some a => (s, some a)
      | none => ({ s with elevenLabsAgent := kvDel s.elevenLabsAgent elevenLabsAgentId }, none)

/-- True exactly for an ok result. -/
def exceptOk : Except Err α → Bool
  | .ok _ => true
  | .error _ => false

/-! ## Concrete scenarios used by the claim theorems -/

def slideStoreEmpty : SlideStore :=
  { slides := [], courseSlides := [], outlineSlides := [], slideOrder := [] }

def c1InputA : CreateSlideInput :=
  { courseId := "c", order := 0, title := "A", content := ["a"], outlineNodeId := none }

def c1InputB : CreateSlideInput :=
  { courseId := "c", order := 0, title := "B", content := ["b"], outlineNodeId := none }

/-- The store after creating slide A at position 0 in the empty course c. -/
def c1Store1 : SlideStore := (slideCreate slideStoreEmpty c1InputA "A" 0).1

/-- The store after then creating slide B at position 0: a non-append
insert into a course of length 1. -/
def c1Store2 : SlideStore := (slideCreate c1Store1 c1InputB "B" 1).1

/-- C1.  The claim states that inserting at position p rewrites the stored
order field and the per-position index entry of every slide previously at
position >= p (shifting them to position+1).  The code does not: after
inserting B at position 0 into course c = [A], slide A's stored order is
still 0 (the claim requires 1), the index entry at position 1 does not
exist (the claim requires it to name A), and A's old entry at position 0
has been overwritten by B — only the materialized array was shifted.
This contradicts the repository's own delete/compaction and
position-lookup logic, which assume stored orders stay dense, so it is a
bug in SlideRepository.create rather than a spec error. -/
theorem spec_c1_insert_does_not_shift :
    (kvGet c1Store2.slides "A").map Slide.order = some 0 ∧
    kvGet c1Store2.courseSlides ("c", 1) = none ∧
    kvGet c1Store2.courseSlides ("c", 0) = some "B" ∧
    getSlideOrder c1Store2 "c" = ["B", "A"] := by decide

/-- C2.  The claim states that after every insert/delete/reorder the set
of stored positions is exactly 0..n-1 with no duplicates and the ordered
listing ascends strictly.  After the two inserts of the C1 scenario the
ordered listing returns positions [0, 0]: a duplicate, not {0, 1}, and
not strictly ascending.  Root cause as in C1: create never rewrites the
shifted slides. -/
theorem spec_c2_ordering_invariant_broken :
    (listByCourse c1Store2 "c" none).map Slide.order = [0, 0] ∧
    ¬ List.Sorted (· < ·) ((listByCourse c1Store2 "c" none).map Slide.order) := by
  refine ⟨by decide, ?_⟩
  rw [show (listByCourse c1Store2 "c" none).map Slide.order = [0, 0] by decide]
  decide

/-- A concrete completed session for the C6 scenario. -/
def c6Session : Session :=
  { sessionId := "s1", courseId := "c", studentId := "u",
    progress :=
      { currentSlideOrder := 1, currentSlideId := "sl1", visitedSlides := [0, 1],
        completedSlides := [0, 1], totalSlides := 2, progressPercentage := 100 },
    startedAt := 0, lastActivityAt := 7, totalDuration := 7, status := .completed,
    endedAt := some 7, totalQuestions := 0, totalInteractions := 0,
    isPracticeMode := false, notes := none, createdAt := 0, updatedAt := 7 }

def c6Store : SessionStore :=
  { sessions := [("s1", c6Session)],
    studentSessions := [(("u", "s1"), "s1")],
    courseSessions := [(("c", "s1"), "s1")],
    activeSession := [] }

/-- C6.  The claim states that completed is terminal: no operation ever
transitions a completed session back to active or paused.  The code's
updateStatus performs no such check: on this concrete store holding a
completed session, requesting status active succeeds, the stored session
is active again, and the active-session claim for (u, c) is
re-established. -/
theorem spec_c6_counterexample :
    (sessionUpdateStatus c6Store "s1" ⟨.active⟩ 10).2.map Session.status = .ok .active ∧
    (kvGet (sessionUpdateStatus c6Store "s1" ⟨.active⟩ 10).1.sessions "s1").map Session.status
      = some .active ∧
    kvGet (sessionUpdateStatus c6Store "s1" ⟨.active⟩ 10).1.activeSession ("u", "c")
      = some "s1" := ⟨rfl, rfl, rfl⟩

/-- C6 (amended).  updateStatus applies any requested status
unconditionally, whatever the current status: the result and the stored
record carry the requested status, and requesting active re-establishes
the active-session claim — so in particular a completed session is
transitioned back to active or paused on request, and completed is not
terminal.  (Only updateProgress rejects completed sessions.) -/
theorem spec_c6_update_status_unguarded (s : SessionStore) (sid : String)
    (sess : Session) (st : SessionStatus) (now : Nat)
    (h : kvGet s.sessions sid = some sess) :
    (sessionUpdateStatus s sid ⟨st⟩ now).2.map Session.status = .ok st ∧
    (kvGet (sessionUpdateStatus s sid ⟨st⟩ now).1.sessions sid).map Session.status = some st ∧
    (st = .active →
      kvGet (sessionUpdateStatus s sid ⟨st⟩ now).1.activeSession
        (sess.studentId, sess.courseId) = some sid) := by
  simp only [sessionUpdateStatus, h]
  split <;> split <;> simp_all [Except.map]

/-- C6 witness: the amended theorem applied to the concrete completed
session of the counterexample scenario, requesting active. -/
theorem spec_c6_witness :
    (sessionUpdateStatus c6Store "s1" ⟨.active⟩ 10).2.map Session.status = .ok .active ∧
    (kvGet (sessionUpdateStatus c6Store "s1" ⟨.active⟩ 10).1.sessions "s1").map Session.status
      = some .active ∧
    (SessionStatus.active = .active →
      kvGet (sessionUpdateStatus c6Store "s1" ⟨.active⟩ 10).1.activeSession ("u", "c")
        = some "s1") :=
  spec_c6_update_status_unguarded c6Store "s1" c6Session .active 10 (by decide)

@[simp] theorem progressedSession_completedSlides (sess : Session)
    (input : UpdateSessionProgressInput) (now : Nat) :
    (progressedSession sess input now).progress.completedSlides = completedAfter sess input := rfl

@[simp] theorem progressedSession_visitedSlides (sess : Session)
    (input : UpdateSessionProgressInput) (now : Nat) :
    (progressedSession sess input now).progress.visitedSlides = visitedAfter sess input := rfl

@[simp] theorem progressedSession_totalSlides (sess : Session)
    (input : UpdateSessionProgressInput) (now : Nat) :
    (progressedSession sess input now).progress.totalSlides = sess.progress.totalSlides := rfl

@[simp] theorem progressedSession_status (sess : Session)
    (input : UpdateSessionProgressInput) (now : Nat) :
    (progressedSession sess input now).status = sess.status := rfl

@[simp] theorem progressedSession_percentage (sess : Session)
    (input : UpdateSessionProgressInput) (now : Nat) :
    (progressedSession sess input now).progress.progressPercentage
      = calculateProgress (completedAfter sess input) sess.progress.totalSlides := rfl

@[simp] theorem progressedSession_studentId (sess : Session)
    (input : UpdateSessionProgressInput) (now : Nat) :
    (progressedSession sess input now).studentId = sess.studentId := rfl

@[simp] theorem progressedSession_courseId (sess : Session)
    (input : UpdateSessionProgressInput) (now : Nat) :
    (progressedSession sess input now).courseId = sess.courseId := rfl

/-- A reachable session with totalSlides = 0 whose completedSlides is
nonempty: created empty, it received one progress update with action
"complete" on slide 1.  (A "complete" action on a zero-slide session
pushes the position without triggering auto-completion.) -/
def c10Session : Session :=
  { sessionId := "s1", courseId := "c", studentId := "u",
    progress :=
      { currentSlideOrder := 1, currentSlideId := "sl1", visitedSlides := [1],
        completedSlides := [1], totalSlides := 0, progressPercentage := 0 },
    startedAt := 0, lastActivityAt := 3, totalDuration := 0, status := .active,
    endedAt := none, totalQuestions := 0, totalInteractions := 0,
    isPracticeMode := false, notes := none, createdAt := 0, updatedAt := 3 }

def c10Store : SessionStore :=
  { sessions := [("s1", c10Session)],
    studentSessions := [(("u", "s1"), "s1")],
    courseSessions := [(("c", "s1"), "s1")],
    activeSession := [(("u", "c"), "s1")] }

def c10Input : UpdateSessionProgressInput :=
  { currentSlideOrder := 2, currentSlideId := "sl2", action := "visit" }

/-- C10.  The claim states that EVERY non-completed session with
totalSlides = 0 transitions to completed on a single non-'complete'
progress update.  Counterexample: the session above is non-completed and
has totalSlides = 0, but its completedSlides is [1] (reachable via an
earlier "complete" action), so after a "visit" update
completedSlides.length = 1 ≠ 0 = totalSlides and the session stays
active, both in the returned and in the stored record. -/
theorem spec_c10_counterexample :
    c10Session.status = .active ∧ c10Session.progress.totalSlides = 0 ∧
    (sessionUpdateProgress c10Store "s1" c10Input 1000).2.map Session.status
      = .ok .active ∧
    (kvGet (sessionUpdateProgress c10Store "s1" c10Input 1000).1.sessions "s1").map
      Session.status = some .active := ⟨rfl, rfl, rfl, rfl⟩

/-- The result of updateProgress on a present, non-completed session:
either the auto-completion branch (completed set covers totalSlides) or
the plain rewrite. -/
theorem sessionUpdateProgress_shape (s : SessionStore) (sid : String) (sess : Session)
    (input : UpdateSessionProgressInput) (now : Nat)
    (h : kvGet s.sessions sid = some sess) (hnc : sess.status ≠ .completed) :
    sessionUpdateProgress s sid input now =
      (if (completedAfter sess input).length = sess.progress.totalSlides then
        ({ s with
            activeSession := kvDel s.activeSession (sess.studentId, sess.courseId),
            sessions := kvPut s.sessions sid
              { progressedSession sess input now with status := .completed, endedAt := some now } },
          .ok { progressedSession sess input now with status := .completed, endedAt := some now })
      else
        ({ s with sessions := kvPut s.sessions sid (progressedSession sess input now) },
          .ok (progressedSession sess input now))) := by
  simp only [sessionUpdateProgress, h, hnc, if_neg, ite_false, reduceIte,
    progressedSession_completedSlides, progressedSession_totalSlides,
    progressedSession_studentId, progressedSession_courseId]
  split <;> rfl

/-- C10 (amended).  A progress update on a non-completed session
auto-completes exactly when the post-update completedSlides length
equals totalSlides.  Specialized to totalSlides = 0: when additionally
completedSlides is empty (as in a freshly created session), any update
whose action is not "complete" immediately completes the session with
progressPercentage 0 and releases the active-session claim; a
"complete" action makes completedSlides strictly larger than totalSlides
and leaves the status unchanged (no auto-completion). -/
theorem spec_c10_auto_complete_exact (s : SessionStore) (sid : String) (sess : Session)
    (input : UpdateSessionProgressInput) (now : Nat)
    (h : kvGet s.sessions sid = some sess) (hnc : sess.status ≠ .completed) :
    ((sessionUpdateProgress s sid input now).2.map Session.status = .ok .completed ↔
      (completedAfter sess input).length = sess.progress.totalSlides) ∧
    (sess.progress.totalSlides = 0 → sess.progress.completedSlides = [] →
      input.action ≠ "complete" →
      (sessionUpdateProgress s sid input now).2.map Session.status = .ok .completed ∧
      (sessionUpdateProgress s sid input now).2.map
        (fun x => x.progress.progressPercentage) = .ok 0 ∧
      kvGet (sessionUpdateProgress s sid input now).1.activeSession
        (sess.studentId, sess.courseId) = none) ∧
    (sess.progress.totalSlides = 0 → input.action = "complete" →
      sess.progress.totalSlides < (completedAfter sess input).length ∧
      (sessionUpdateProgress s sid input now).2.map Session.status = .ok sess.status) := by
  have hmain := sessionUpdateProgress_shape s sid sess input now h hnc
  by_cases hd : (completedAfter sess input).length = sess.progress.totalSlides
  · rw [hmain, if_pos hd]
    refine ⟨by simp [Except.map, hd], ?_, ?_⟩
    · intro h0 _ _
      exact ⟨by simp [Except.map], by simp [Except.map, calculateProgress, h0], by simp⟩
    · intro h0 hc
      exfalso
      rw [completedAfter, if_pos hc] at hd
      by_cases hm : input.currentSlideOrder ∈ sess.progress.completedSlides
      · rw [if_pos hm] at hd
        have := List.length_pos.mpr (List.ne_nil_of_mem hm)
        omega
      · rw [if_neg hm] at hd
        simp at hd
        omega
  · rw [hmain, if_neg hd]
    refine ⟨by simp [Except.map, hd, hnc], ?_, ?_⟩
    · intro h0 hempty hna
      exfalso
      rw [completedAfter, if_neg hna, hempty] at hd
      simp [h0] at hd
    · intro h0 hc
      constructor
      · rw [h0]
        rw [completedAfter, if_pos hc]
        by_cases hm : input.currentSlideOrder ∈ sess.progress.completedSlides
        · rw [if_pos hm]
          exact List.length_pos.mpr (List.ne_nil_of_mem hm)
        · rw [if_neg hm]
          simp
      · simp [Except.map]

/-- C10 witness: the amended theorem applied to a concrete fresh
zero-slide session (empty completedSlides) and a "visit" update, and to
the same concrete store for the exactness clause. -/
theorem spec_c10_witness :
    c10Session.status ≠ .completed ∧
    ((sessionUpdateProgress c10Store "s1" c10Input 1000).2.map Session.status
        = .ok .completed ↔
      (completedAfter c10Session c10Input).length = c10Session.progress.totalSlides) :=
  ⟨by decide, (spec_c10_auto_complete_exact c10Store "s1" c10Session c10Input 1000
    (by decide) (by decide)).1⟩

/-- A concrete user store: u1 owns email a@x.com and username alice. -/
def c9User : User :=
  { userId := "u1", email := "a@x.com", username := "alice", role := .student,
    createdAt := 0, updatedAt := 0 }

def c9Store : UserStore :=
  { users := [("u1", c9User)],
    emailIdx := [("a@x.com", "u1")],
    usernameIdx := [("alice", "u1")],
    roleIdx := [((.student, "u1"), "u1")] }

def c9Input : CreateUserInput := { email := "A@X.Com", username := "bob", role := .student }

/-- C9.  The claim states that creating a user with an already-claimed
email fails with the Conflict error kind.  On this concrete store the
create is indeed rejected (case-insensitively), but with a
ValidationError ("Email already exists"), not a ConflictError. -/
theorem spec_c9_counterexample :
    (userCreate c9Store c9Input "u2" 5).2 = .error (.validation "Email already exists") ∧
    isConflictErr (userCreate c9Store c9Input "u2" 5).2 = false := ⟨rfl, rfl⟩

/-- C9 (amended).  Creating a user whose lowercased email (or, the email
being free, whose lowercased username) is already claimed fails with a
ValidationError — the rejection itself and the case-insensitivity hold
as claimed, only the error kind differs from Conflict — and after
deleting the claiming user, a create with the same email and username
succeeds. -/
theorem spec_c9_uniqueness_validation_kind (s : UserStore) (inp inp2 : CreateUserInput)
    (uid uid2 uid3 : String) (now now2 : Nat) (u : User)
    (hu : kvGet s.users uid = some u) :
    ((kvGet s.emailIdx (jsToLower inp.email)).getD "" ≠ "" →
      (userCreate s inp uid2 now).2 = .error (.validation "Email already exists")) ∧
    ((kvGet s.emailIdx (jsToLower inp.email)).getD "" = "" →
      (kvGet s.usernameIdx (jsToLower inp.username)).getD "" ≠ "" →
      (userCreate s inp uid2 now).2 = .error (.validation "Username already exists")) ∧
    (jsToLower inp2.email = jsToLower u.email →
      jsToLower inp2.username = jsToLower u.username →
      exceptOk (userCreate (userDelete s uid).1 inp2 uid3 now2).2 = true) := by
  refine ⟨?_, ?_, ?_⟩
  · intro he
    simp only [userCreate, if_pos he]
  · intro he hn
    simp [userCreate, he, hn]
  · intro he hn
    simp only [userDelete, hu]
    simp only [userCreate, he, hn]
    simp [exceptOk]

/-- C9 witness: the amended theorem applied to the concrete store above —
the duplicate create is rejected with a ValidationError, and after
deleting u1 the same email/username can be created again. -/
theorem spec_c9_witness :
    (userCreate c9Store c9Input "u2" 5).2 = .error (.validation "Email already exists") ∧
    exceptOk (userCreate (userDelete c9Store "u1").1
      { email := "a@X.COM", username := "ALICE", role := .student } "u3" 9).2 = true :=
  ⟨(spec_c9_uniqueness_validation_kind c9Store c9Input
      { email := "a@X.COM", username := "ALICE", role := .student } "u1" "u2" "u3" 5 9 c9User
      rfl).1 (by decide),
   (spec_c9_uniqueness_validation_kind c9Store c9Input
      { email := "a@X.COM", username := "ALICE", role := .student } "u1" "u2" "u3" 5 9 c9User
      rfl).2.2 (by decide) (by decide)⟩

/-- Looking the active session up twice in a row gives the same answer:
the healing performed by the first lookup (if any) leaves nothing more
to heal. -/
theorem getActiveSession_idem (t : SessionStore) (studentId courseId : String) :
    getActiveSession (getActiveSession t studentId courseId).1 studentId courseId
      = getActiveSession t studentId courseId := by
  unfold getActiveSession
  match hidx : kvGet t.activeSession (studentId, courseId) with
  | none => simp [hidx]
  | some sid =>
    by_cases hsid : sid = ""
    · simp [hidx, hsid]
    · match hrec : kvGet t.sessions sid with
      | some sess => simp [hidx, hsid, hrec]
      | none => simp [hidx, hsid, hrec]

/-- C3.  With an active session resolvable for (S, C): a second create for
(S, C) leaves the store unchanged and fails with a ConflictError whose
message reports the existing session's id; resume-or-create returns the
existing session unchanged with isNew = false and does not touch the
store; and whenever resume-or-create reports isNew = true it genuinely
created the returned session: the session carries the given fresh id, it
is stored under that id afterwards, and no active session resolved for
(student, course) beforehand. -/
theorem spec_c3_session_uniqueness (s : SessionStore) (S C sid : String) (sess : Session)
    (inp : CreateSessionInput) (total : Nat) (freshId : String) (now : Nat)
    (hS : inp.studentId = S) (hC : inp.courseId = C)
    (hidx : kvGet s.activeSession (S, C) = some sid) (hne : sid ≠ "")
    (hrec : kvGet s.sessions sid = some sess) :
    ((sessionCreate s inp total freshId now).1 = s ∧
     (sessionCreate s inp total freshId now).2 = .error (.conflict
       ("Student already has an active session for this course: " ++ sess.sessionId)) ∧
     sessionResumeOrCreate s inp total freshId now = (s, .ok (sess, false))) ∧
    (∀ (t : SessionStore) (inp2 : CreateSessionInput) (total2 : Nat) (fid2 : String)
        (now2 : Nat) (sess2 : Session),
      (sessionResumeOrCreate t inp2 total2 fid2 now2).2 = .ok (sess2, true) →
      sess2.sessionId = fid2 ∧
      kvGet (sessionResumeOrCreate t inp2 total2 fid2 now2).1.sessions fid2 = some sess2 ∧
      (getActiveSession t inp2.studentId inp2.courseId).2 = none) := by
  subst hS hC
  constructor
  · have hact : getActiveSession s inp.studentId inp.courseId = (s, some sess) := by
      simp [getActiveSession, hidx, hne, hrec]
    refine ⟨?_, ?_, ?_⟩
    · simp [sessionCreate, hact]
    · simp [sessionCreate, hact]
    · simp [sessionResumeOrCreate, hact]
  · intro t inp2 total2 fid2 now2 sess2 hres
    match hact : (getActiveSession t inp2.studentId inp2.courseId).2 with
    | some x =>
      rw [sessionResumeOrCreate] at hres
      simp only [hact] at hres
      simp at hres
    | none =>
      have hidem := getActiveSession_idem t inp2.studentId inp2.courseId
      rw [sessionResumeOrCreate] at hres ⊢
      simp only [hact] at hres ⊢
      rw [sessionCreate, hidem] at hres ⊢
      simp only [hact] at hres ⊢
      simp only [Except.ok.injEq, Prod.mk.injEq] at hres
      refine ⟨?_, ?_, trivial⟩
      · rw [← hres.1]
      · simp only [← hres.1]
        simp

/-- C3 witness: the theorem applied to the concrete store holding active
session s1 for student u in course c. -/
theorem spec_c3_witness :
    (sessionCreate c10Store ⟨"u", "c", none⟩ 5 "s2" 50).2 = .error (.conflict
      "Student already has an active session for this course: s1") ∧
    sessionResumeOrCreate c10Store ⟨"u", "c", none⟩ 5 "s2" 50
      = (c10Store, .ok (c10Session, false)) := by
  have h := spec_c3_session_uniqueness c10Store "u" "c" "s1" c10Session
    ⟨"u", "c", none⟩ 5 "s2" 50 rfl rfl (by decide) (by decide) (by decide)
  exact ⟨h.1.2.1, h.1.2.2⟩

/-- The updated position is always in the visited set after an update. -/
theorem mem_visitedAfter (sess : Session) (input : UpdateSessionProgressInput) :
    input.currentSlideOrder ∈ visitedAfter sess input := by
  unfold visitedAfter
  split
  · assumption
  · simp

/-- On action "complete", the updated position is in the completed set
after the update. -/
theorem mem_completedAfter (sess : Session) (input : UpdateSessionProgressInput)
    (hact : input.action = "complete") :
    input.currentSlideOrder ∈ completedAfter sess input := by
  unfold completedAfter
  rw [if_pos hact]
  split
  · assumption
  · simp

/-- Repeating the same update does not change the visited set again. -/
theorem visitedAfter_idem (sess : Session) (input : UpdateSessionProgressInput)
    (now : Nat) :
    visitedAfter (progressedSession sess input now) input = visitedAfter sess input := by
  conv_lhs => rw [visitedAfter]
  rw [progressedSession_visitedSlides, if_pos (mem_visitedAfter sess input)]

/-- Repeating the same update does not change the completed set again. -/
theorem completedAfter_idem (sess : Session) (input : UpdateSessionProgressInput)
    (now : Nat) :
    completedAfter (progressedSession sess input now) input = completedAfter sess input := by
  conv_lhs => rw [completedAfter]
  rw [progressedSession_completedSlides]
  by_cases hact : input.action = "complete"
  · rw [if_pos hact, if_pos (mem_completedAfter sess input hact)]
  · rw [if_neg hact, completedAfter, if_neg hact]

/-- After one "complete slide k" update on a session whose completed set
held k at most once, the completed set holds k exactly once. -/
theorem count_completedAfter (sess : Session) (input : UpdateSessionProgressInput)
    (hact : input.action = "complete")
    (hc : sess.progress.completedSlides.count input.currentSlideOrder ≤ 1) :
    (completedAfter sess input).count input.currentSlideOrder = 1 := by
  unfold completedAfter
  rw [if_pos hact]
  split
  · next hm =>
    have := List.count_pos_iff.mpr hm
    omega
  · next hm =>
    rw [List.count_append]
    rw [List.count_eq_zero_of_not_mem hm]
    simp

/-- After one update visiting k on a session whose visited set held k at
most once, the visited set holds k exactly once. -/
theorem count_visitedAfter (sess : Session) (input : UpdateSessionProgressInput)
    (hv : sess.progress.visitedSlides.count input.currentSlideOrder ≤ 1) :
    (visitedAfter sess input).count input.currentSlideOrder = 1 := by
  unfold visitedAfter
  split
  · next hm =>
    have := List.count_pos_iff.mpr hm
    omega
  · next hm =>
    rw [List.count_append]
    rw [List.count_eq_zero_of_not_mem hm]
    simp

/-- C4.  On a non-completed session whose visited and completed sets hold
slide k at most once (true of every session the repository builds, since
pushes are membership-guarded), issuing the same "complete slide k"
update twice is idempotent on the stored progress: afterwards the
completed set holds k exactly once, the visited set holds k exactly
once, and the percentage equals its value after the first call.  This
covers both second-call outcomes: a plain repeat (no-op on the sets) and
a rejection with ValidationError when the first call auto-completed the
session — the stored progress is unchanged either way. -/
theorem spec_c4_progress_idempotent (s : SessionStore) (sid : String) (sess : Session)
    (input : UpdateSessionProgressInput) (now1 now2 : Nat)
    (h : kvGet s.sessions sid = some sess) (hnc : sess.status ≠ .completed)
    (hact : input.action = "complete")
    (hc1 : sess.progress.completedSlides.count input.currentSlideOrder ≤ 1)
    (hv1 : sess.progress.visitedSlides.count input.currentSlideOrder ≤ 1) :
    (kvGet (sessionUpdateProgress (sessionUpdateProgress s sid input now1).1 sid input now2).1.sessions sid).map
        (fun x => x.progress.completedSlides.count input.currentSlideOrder) = some 1 ∧
    (kvGet (sessionUpdateProgress (sessionUpdateProgress s sid input now1).1 sid input now2).1.sessions sid).map
        (fun x => x.progress.visitedSlides.count input.currentSlideOrder) = some 1 ∧
    (kvGet (sessionUpdateProgress (sessionUpdateProgress s sid input now1).1 sid input now2).1.sessions sid).map
        (fun x => x.progress.progressPercentage) =
      (kvGet (sessionUpdateProgress s sid input now1).1.sessions sid).map
        (fun x => x.progress.progressPercentage) := by
  have e1 := sessionUpdateProgress_shape s sid sess input now1 h hnc
  have hcc := count_completedAfter sess input hact hc1
  have hvc := count_visitedAfter sess input hv1
  by_cases hd1 : (completedAfter sess input).length = sess.progress.totalSlides
  · rw [e1, if_pos hd1]
    set sess1 : Session :=
      { progressedSession sess input now1 with status := .completed, endedAt := some now1 }
      with hsess1
    have hget1 : kvGet (kvPut s.sessions sid sess1) sid = some sess1 := kvGet_put_self _ _ _
    have hstep2 : sessionUpdateProgress
        ({ s with
            activeSession := kvDel s.activeSession (sess.studentId, sess.courseId),
            sessions := kvPut s.sessions sid sess1 }) sid input now2 =
        ({ s with
            activeSession := kvDel s.activeSession (sess.studentId, sess.courseId),
            sessions := kvPut s.sessions sid sess1 },
          .error (.validation "Cannot update progress for completed session")) := by
      rw [sessionUpdateProgress]
      simp [hget1, hsess1]
    rw [hstep2]
    refine ⟨?_, ?_, rfl⟩
    · simp [hget1, hsess1, hcc]
    · simp [hget1, hsess1, hvc]
  · rw [e1, if_neg hd1]
    have hget1 : kvGet (kvPut s.sessions sid (progressedSession sess input now1)) sid
        = some (progressedSession sess input now1) := kvGet_put_self _ _ _
    have hnc1 : (progressedSession sess input now1).status ≠ .completed := by
      rw [progressedSession_status]; exact hnc
    have e2 := sessionUpdateProgress_shape
      ({ s with sessions := kvPut s.sessions sid (progressedSession sess input now1) })
      sid (progressedSession sess input now1) input now2 hget1 hnc1
    have hd2 : ¬ ((completedAfter (progressedSession sess input now1) input).length
        = (progressedSession sess input now1).progress.totalSlides) := by
      rw [completedAfter_idem, progressedSession_totalSlides]
      exact hd1
    rw [e2, if_neg hd2]
    refine ⟨?_, ?_, ?_⟩
    · simp [completedAfter_idem, hcc]
    · simp [visitedAfter_idem, hvc]
    · simp [hget1, completedAfter_idem]

/-- A fresh two-slide session for the C4/C5 witnesses. -/
def c4Session : Session :=
  { sessionId := "s1", courseId := "c", studentId := "u",
    progress :=
      { currentSlideOrder := 0, currentSlideId := "", visitedSlides := [],
        completedSlides := [], totalSlides := 2, progressPercentage := 0 },
    startedAt := 0, lastActivityAt := 0, totalDuration := 0, status := .active,
    endedAt := none, totalQuestions := 0, totalInteractions := 0,
    isPracticeMode := false, notes := none, createdAt := 0, updatedAt := 0 }

def c4Store : SessionStore :=
  { sessions := [("s1", c4Session)],
    studentSessions := [(("u", "s1"), "s1")],
    courseSessions := [(("c", "s1"), "s1")],
    activeSession := [(("u", "c"), "s1")] }

def c4Input : UpdateSessionProgressInput :=
  { currentSlideOrder := 0, currentSlideId := "sl0", action := "complete" }

/-- C4 witness: the theorem applied to the concrete fresh session,
completing slide 0 twice. -/
theorem spec_c4_witness :
    (kvGet (sessionUpdateProgress (sessionUpdateProgress c4Store "s1" c4Input 10).1 "s1" c4Input 20).1.sessions "s1").map
        (fun x => x.progress.completedSlides.count c4Input.currentSlideOrder) = some 1 ∧
    (kvGet (sessionUpdateProgress (sessionUpdateProgress c4Store "s1" c4Input 10).1 "s1" c4Input 20).1.sessions "s1").map
        (fun x => x.progress.visitedSlides.count c4Input.currentSlideOrder) = some 1 ∧
    (kvGet (sessionUpdateProgress (sessionUpdateProgress c4Store "s1" c4Input 10).1 "s1" c4Input 20).1.sessions "s1").map
        (fun x => x.progress.progressPercentage) =
      (kvGet (sessionUpdateProgress c4Store "s1" c4Input 10).1.sessions "s1").map
        (fun x => x.progress.progressPercentage) :=
  spec_c4_progress_idempotent c4Store "s1" c4Session c4Input 10 20
    (by decide) (by decide) (by decide) (by decide) (by decide)

/-- C5.  When a progress update makes the completed set cover all
totalSlides positions, the session is stored and returned with status
completed and an end time stamped at the update instant, the
active-session claim for (studentId, courseId) is deleted, and a
subsequent create for the same (studentId, courseId) succeeds. -/
theorem spec_c5_auto_completion (s : SessionStore) (sid : String) (sess : Session)
    (input : UpdateSessionProgressInput) (now : Nat)
    (h : kvGet s.sessions sid = some sess) (hnc : sess.status ≠ .completed)
    (hdone : (completedAfter sess input).length = sess.progress.totalSlides)
    (inp2 : CreateSessionInput) (total2 : Nat) (fid2 : String) (now2 : Nat)
    (hS : inp2.studentId = sess.studentId) (hC : inp2.courseId = sess.courseId) :
    (sessionUpdateProgress s sid input now).2.map Session.status = .ok .completed ∧
    (sessionUpdateProgress s sid input now).2.map Session.endedAt = .ok (some now) ∧
    (kvGet (sessionUpdateProgress s sid input now).1.sessions sid).map Session.status
      = some .completed ∧
    kvGet (sessionUpdateProgress s sid input now).1.activeSession
      (sess.studentId, sess.courseId) = none ∧
    exceptOk (sessionCreate (sessionUpdateProgress s sid input now).1 inp2 total2 fid2 now2).2
      = true := by
  have e1 := sessionUpdateProgress_shape s sid sess input now h hnc
  rw [e1, if_pos hdone]
  refine ⟨by simp [Except.map], by simp [Except.map], by simp, by simp, ?_⟩
  rw [sessionCreate, getActiveSession]
  simp [hS, hC, exceptOk]

/-- A session one slide short of completion for the C5 witness. -/
def c5Session : Session :=
  { sessionId := "s1", courseId := "c", studentId := "u",
    progress :=
      { currentSlideOrder := 0, currentSlideId := "sl0", visitedSlides := [0],
        completedSlides := [0], totalSlides := 2, progressPercentage := 50 },
    startedAt := 0, lastActivityAt := 5, totalDuration := 5, status := .active,
    endedAt := none, totalQuestions := 0, totalInteractions := 0,
    isPracticeMode := false, notes := none, createdAt := 0, updatedAt := 5 }

def c5Store : SessionStore :=
  { sessions := [("s1", c5Session)],
    studentSessions := [(("u", "s1"), "s1")],
    courseSessions := [(("c", "s1"), "s1")],
    activeSession := [(("u", "c"), "s1")] }

def c5Input : UpdateSessionProgressInput :=
  { currentSlideOrder := 1, currentSlideId := "sl1", action := "complete" }

/-- C5 witness: completing the last slide of the concrete session
auto-completes it, releases the (u, c) claim, and a fresh create for
(u, c) then succeeds. -/
theorem spec_c5_witness :
    (sessionUpdateProgress c5Store "s1" c5Input 9).2.map Session.status = .ok .completed ∧
    (sessionUpdateProgress c5Store "s1" c5Input 9).2.map Session.endedAt = .ok (some 9) ∧
    (kvGet (sessionUpdateProgress c5Store "s1" c5Input 9).1.sessions "s1").map Session.status
      = some .completed ∧
    kvGet (sessionUpdateProgress c5Store "s1" c5Input 9).1.activeSession
      (c5Session.studentId, c5Session.courseId) = none ∧
    exceptOk (sessionCreate (sessionUpdateProgress c5Store "s1" c5Input 9).1
      ⟨"u", "c", none⟩ 2 "s2" 30).2 = true :=
  spec_c5_auto_completion c5Store "s1" c5Session c5Input 9 (by decide) (by decide) (by decide)
    ⟨"u", "c", none⟩ 2 "s2" 30 rfl rfl

/-- C8.  Each index-driven lookup that resolves to an id whose primary
record is absent heals itself: it reports none (no error) and deletes
the dangling index entry, so the stale entry is gone afterwards.  Shown
for the active-session claim, the course → agent index, and the
ElevenLabs id → agent mapping. -/
theorem spec_c8_stale_index_healing
    (ss : SessionStore) (S C sid : String)
    (h1 : kvGet ss.activeSession (S, C) = some sid) (h2 : sid ≠ "")
    (h3 : kvGet ss.sessions sid = none)
    (ag : AgentStore) (cid aid : String)
    (h4 : kvGet ag.courseAgent cid = some aid) (h5 : aid ≠ "")
    (h6 : kvGet ag.agents aid = none)
    (ag2 : AgentStore) (eid aid2 : String)
    (h7 : kvGet ag2.elevenLabsAgent eid = some aid2) (h8 : aid2 ≠ "")
    (h9 : kvGet ag2.agents aid2 = none) :
    ((getActiveSession ss S C).2 = none ∧
     kvGet (getActiveSession ss S C).1.activeSession (S, C) = none) ∧
    ((agentGetByCourse ag cid).2 = none ∧
     kvGet (agentGetByCourse ag cid).1.courseAgent cid = none) ∧
    ((agentGetByElevenLabsId ag2 eid).2 = none ∧
     kvGet (agentGetByElevenLabsId ag2 eid).1.elevenLabsAgent eid = none) := by
  refine ⟨⟨?_, ?_⟩, ⟨?_, ?_⟩, ⟨?_, ?_⟩⟩ <;>
    simp [getActiveSession, agentGetByCourse, agentGetByElevenLabsId,
      h1, h2, h3, h4, h5, h6, h7, h8, h9]

/-- A session store whose active-session claim dangles (record manually
deleted, index left in place). -/
def c8SessionStore : SessionStore :=
  { sessions := [],
    studentSessions := [(("u", "s1"), "s1")],
    courseSessions := [(("c", "s1"), "s1")],
    activeSession := [(("u", "c"), "s1")] }

/-- An agent store whose course index and ElevenLabs mapping both dangle. -/
def c8AgentStore : AgentStore :=
  { agents := [],
    courseAgent := [("c", "a1")],
    teacherAgents := [(("t", "a1"), "a1")],
    elevenLabsAgent := [("el1", "a1")] }

/-- C8 witness: the theorem applied to the concrete dangling stores. -/
theorem spec_c8_witness :
    ((getActiveSession c8SessionStore "u" "c").2 = none ∧
     kvGet (getActiveSession c8SessionStore "u" "c").1.activeSession ("u", "c") = none) ∧
    ((agentGetByCourse c8AgentStore "c").2 = none ∧
     kvGet (agentGetByCourse c8AgentStore "c").1.courseAgent "c" = none) ∧
    ((agentGetByElevenLabsId c8AgentStore "el1").2 = none ∧
     kvGet (agentGetByElevenLabsId c8AgentStore "el1").1.elevenLabsAgent "el1" = none) :=
  spec_c8_stale_index_healing c8SessionStore "u" "c" "s1" (by decide) (by decide) (by decide)
    c8AgentStore "c" "a1" (by decide) (by decide) (by decide)
    c8AgentStore "el1" "a1" (by decide) (by decide) (by decide)

/-- A successful lookup comes from an entry of the list. -/
theorem kvGet_mem [DecidableEq κ] {m : List (κ × α)} {k : κ} {v : α}
    (h : kvGet m k = some v) : (k, v) ∈ m := by
  induction m with
  | nil => simp [kvGet] at h
  | cons hd tl ih =>
    obtain ⟨k', v'⟩ := hd
    rw [kvGet] at h
    by_cases hk : k' = k
    · rw [if_pos hk] at h
      subst hk
      cases h
      exact List.mem_cons_self _ _
    · rw [if_neg hk] at h
      exact List.mem_cons_of_mem _ (ih h)

/-- Deletion only removes entries. -/
theorem kvDel_subset [DecidableEq κ] {m : List (κ × α)} {k : κ} :
    ∀ e ∈ kvDel m k, e ∈ m := by
  induction m with
  | nil => simp [kvDel]
  | cons hd tl ih =>
    obtain ⟨k', v'⟩ := hd
    intro e he
    rw [kvDel] at he
    by_cases hk : k' = k
    · rw [if_pos hk] at he
      exact List.mem_cons_of_mem _ (ih e he)
    · rw [if_neg hk] at he
      rcases List.mem_cons.mp he with h | h
      · exact h ▸ List.mem_cons_self _ _
      · exact List.mem_cons_of_mem _ (ih e h)

/-- Stable insertion permutes to a cons. -/
theorem insertStable_perm (lt : α → α → Bool) (x : α) (l : List α) :
    (insertStable lt x l).Perm (x :: l) := by
  induction l with
  | nil => exact List.Perm.refl _
  | cons y ys ih =>
    rw [insertStable]
    split
    · exact ((ih.cons y).trans (List.Perm.swap x y ys))
    · exact List.Perm.refl _

/-- The stable sort is a permutation of its input. -/
theorem stableSortBy_perm (lt : α → α → Bool) (l : List α) :
    (stableSortBy lt l).Perm l := by
  induction l with
  | nil => exact List.Perm.refl _
  | cons x xs ih =>
    exact (insertStable_perm lt x (stableSortBy lt xs)).trans (ih.cons x)

/-- Characterization of one cleanup pass over a duplicate-free list of
candidate keys: a record is removed exactly when its key was listed and
its expiresAt is at or before the sweep time, and the owner-index entry
(userId, transcriptionId) of exactly those records is removed with it;
everything else is untouched.  Requires the store to be well formed in
that every record's stored transcriptionId equals its key. -/
theorem cleanup_fold_spec (now : Nat) (keys : List String) :
    ∀ (s : TranscriptionStore), keys.Nodup →
    (∀ e ∈ s.trans, e.2.1.transcriptionId = e.1) →
    (∀ k, kvGet (keys.foldl (cleanupStep now) s).trans k =
      (if k ∈ keys then
        (match kvGet s.trans k with
         | some (t, dl) => if t.expiresAt ≤ now then none else some (t, dl)
         | none => none)
       else kvGet s.trans k)) ∧
    (∀ u v, kvGet (keys.foldl (cleanupStep now) s).userTrans (u, v) =
      (match kvGet s.trans v with
       | some (t, _) =>
         if v ∈ keys ∧ t.expiresAt ≤ now ∧ t.userId = u then none
         else kvGet s.userTrans (u, v)
       | none => kvGet s.userTrans (u, v))) := by
  induction keys with
  | nil =>
    intro s _ _
    refine ⟨fun k => by simp, fun u v => ?_⟩
    match h : kvGet s.trans v with
    | some (t, dl) => simp [h]
    | none => simp [h]
  | cons k₀ rest ih =>
    intro s hnd hwf
    obtain ⟨hk₀, hndr⟩ := List.nodup_cons.mp hnd
    rw [List.foldl_cons]
    match hK : kvGet s.trans k₀ with
    | none =>
      have hstep : cleanupStep now s k₀ = s := by rw [cleanupStep, hK]
      rw [hstep]
      obtain ⟨iht, ihu⟩ := ih s hndr hwf
      refine ⟨fun k => ?_, fun u v => ?_⟩
      · by_cases hkk : k = k₀
        · subst hkk
          rw [iht k]
          simp [hk₀, hK]
        · rw [iht k]
          simp [List.mem_cons, hkk]
      · rw [ihu u v]
        by_cases hvv : v = k₀
        · subst hvv
          simp [hK]
        · match hV : kvGet s.trans v with
          | none => simp [hV]
          | some (t, dl) => simp [hV, List.mem_cons, hvv]
    | some (t, dl) =>
      have htid : t.transcriptionId = k₀ := hwf _ (kvGet_mem hK)
      by_cases hexp : t.expiresAt ≤ now
      · have hstep : cleanupStep now s k₀ =
            { s with trans := kvDel s.trans k₀,
                     userTrans := kvDel s.userTrans (t.userId, k₀) } := by
          simp only [cleanupStep, hK]
          rw [if_pos hexp]
          simp only [transcriptionDelete, transcriptionGetById, htid, hK]
        rw [hstep]
        have hwf1 : ∀ e ∈ kvDel s.trans k₀, e.2.1.transcriptionId = e.1 :=
          fun e he => hwf e (kvDel_subset e he)
        obtain ⟨iht, ihu⟩ := ih
          { s with trans := kvDel s.trans k₀, userTrans := kvDel s.userTrans (t.userId, k₀) }
          hndr hwf1
        refine ⟨fun k => ?_, fun u v => ?_⟩
        · by_cases hkk : k = k₀
          · subst hkk
            rw [iht k]
            simp [hk₀, hK, hexp]
          · rw [iht k]
            rw [show kvGet (kvDel s.trans k₀) k = kvGet s.trans k from
              kvGet_del_ne _ _ _ (fun he => hkk he.symm)]
            simp [List.mem_cons, hkk]
        · rw [ihu u v]
          by_cases hvv : v = k₀
          · subst hvv
            rw [show kvGet (kvDel s.trans v) v = none from kvGet_del_self _ _]
            by_cases huu : t.userId = u
            · subst huu
              rw [show kvGet (kvDel s.userTrans (t.userId, v)) (t.userId, v) = none from
                kvGet_del_self _ _]
              simp [hK, hexp]
            · rw [show kvGet (kvDel s.userTrans (t.userId, v)) (u, v) = kvGet s.userTrans (u, v)
                from kvGet_del_ne _ _ _ (by simp [huu])]
              simp [hK, hexp, huu]
          · rw [show kvGet (kvDel s.trans k₀) v = kvGet s.trans v from
              kvGet_del_ne _ _ _ (fun he => hvv he.symm)]
            rw [show kvGet (kvDel s.userTrans (t.userId, k₀)) (u, v) = kvGet s.userTrans (u, v)
              from kvGet_del_ne _ _ _ (by
                simp only [ne_eq, Prod.mk.injEq, not_and]
                exact fun _ he => hvv he.symm)]
            match hV : kvGet s.trans v with
            | none => simp [hV]
            | some (t', dl') => simp [hV, List.mem_cons, hvv]
      · have hstep : cleanupStep now s k₀ = s := by
          simp only [cleanupStep, hK]
          rw [if_neg hexp]
        rw [hstep]
        obtain ⟨iht, ihu⟩ := ih s hndr hwf
        refine ⟨fun k => ?_, fun u v => ?_⟩
        · by_cases hkk : k = k₀
          · subst hkk
            rw [iht k]
            simp [hk₀, hK, hexp]
          · rw [iht k]
            simp [List.mem_cons, hkk]
        · rw [ihu u v]
          by_cases hvv : v = k₀
          · subst hvv
            simp [hK, hexp]
          · match hV : kvGet s.trans v with
            | none => simp [hV]
            | some (t', dl') => simp [hV, List.mem_cons, hvv]

/-- The remaining TTL computed by an update at a time no later than
expiry is the exact number of whole seconds left. -/
theorem remainingTtl_of_le (expiresAt now : Nat) (h : now ≤ expiresAt) :
    remainingTtl expiresAt now = (expiresAt - now) / 1000 := by
  unfold remainingTtl
  rw [show ((expiresAt : Int) - now) = ((expiresAt - now : Nat) : Int) from by omega]
  rw [Int.fdiv_eq_tdiv (by positivity) (by norm_num)]
  rw [show ((expiresAt - now : Nat) : Int).tdiv (1000 : Int)
      = (((expiresAt - now) / 1000 : Nat) : Int) from by
    exact_mod_cast (Int.ofNat_tdiv (expiresAt - now) 1000).symm]
  omega

/-- C7 (amended).  Part one: an update at any time before expiry
rewrites the record with its expiresAt field unchanged and with the
recomputed remaining TTL max(0, expiresAt - now) — exactly
(expiresAt - now)/1000 whole seconds, never the full 24-hour TTL — so
the rewritten entry's requested deadline never exceeds the original
absolute expiry.  Part two: within the sweep's 1000-key list cap the
defensive sweep deletes exactly the records whose expiresAt is at or
before the sweep time, along with their owner-index entries, and
touches nothing else (stated for stores with duplicate-free keys, at
most 1000 records, and records keyed by their own transcriptionId;
beyond the cap expired records survive — see the counterexample). -/
theorem spec_c7_expiry (s : TranscriptionStore) (tid : String) (t : Transcription)
    (dl : Nat) (updates : UpdateTranscriptionInput) (now : Nat)
    (h1 : kvGet s.trans tid = some (t, dl)) (hbefore : now < t.expiresAt) :
    ((transcriptionUpdate s tid updates now).2.map Transcription.expiresAt
        = .ok t.expiresAt ∧
     kvGet (transcriptionUpdate s tid updates now).1.trans tid
        = some (mergedTranscription t updates now, now + remainingTtl t.expiresAt now * 1000) ∧
     remainingTtl t.expiresAt now = (t.expiresAt - now) / 1000 ∧
     now + remainingTtl t.expiresAt now * 1000 ≤ t.expiresAt) ∧
    (∀ (s2 : TranscriptionStore) (now2 : Nat),
      (s2.trans.map Prod.fst).Nodup → s2.trans.length ≤ 1000 →
      (∀ e ∈ s2.trans, e.2.1.transcriptionId = e.1) →
      (∀ k t' dl', kvGet s2.trans k = some (t', dl') →
        kvGet (cleanupExpired s2 now2).trans k =
          if t'.expiresAt ≤ now2 then none else some (t', dl')) ∧
      (∀ k, kvGet s2.trans k = none → kvGet (cleanupExpired s2 now2).trans k = none) ∧
      (∀ u v t' dl', kvGet s2.trans v = some (t', dl') → t'.expiresAt ≤ now2 →
        t'.userId = u →
        kvGet (cleanupExpired s2 now2).userTrans (u, v) = none) ∧
      (∀ u v t' dl', kvGet s2.trans v = some (t', dl') →
        ¬(t'.expiresAt ≤ now2 ∧ t'.userId = u) →
        kvGet (cleanupExpired s2 now2).userTrans (u, v) = kvGet s2.userTrans (u, v)) ∧
      (∀ u v, kvGet s2.trans v = none →
        kvGet (cleanupExpired s2 now2).userTrans (u, v) = kvGet s2.userTrans (u, v))) := by
  constructor
  · have hle : now ≤ t.expiresAt := Nat.le_of_lt hbefore
    have hrem := remainingTtl_of_le t.expiresAt now hle
    have hupd : transcriptionUpdate s tid updates now =
        ({ s with trans := kvPut s.trans tid (mergedTranscription t updates now, now + remainingTtl t.expiresAt now * 1000) },
          .ok (mergedTranscription t updates now)) := by
      simp only [transcriptionUpdate, transcriptionGetById, h1]
    refine ⟨?_, ?_, hrem, ?_⟩
    · rw [hupd]
      simp [Except.map, mergedTranscription]
    · rw [hupd]
      simp
    · rw [hrem]
      have := Nat.div_mul_le_self (t.expiresAt - now) 1000
      omega
  · intro s2 now2 hnd hlen hwf
    have hperm := stableSortBy_perm strLt (s2.trans.map Prod.fst)
    have hndk : (stableSortBy strLt (s2.trans.map Prod.fst)).Nodup :=
      hperm.nodup_iff.mpr hnd
    have hclean : cleanupExpired s2 now2 =
        (stableSortBy strLt (s2.trans.map Prod.fst)).foldl (cleanupStep now2) s2 := by
      rw [cleanupExpired]
      rw [List.take_of_length_le (by rw [hperm.length_eq, List.length_map]; exact hlen)]
    obtain ⟨ft, fu⟩ := cleanup_fold_spec now2 (stableSortBy strLt (s2.trans.map Prod.fst))
      s2 hndk hwf
    have hmemk : ∀ k (p : Transcription × Nat), kvGet s2.trans k = some p →
        k ∈ stableSortBy strLt (s2.trans.map Prod.fst) := by
      intro k p hk
      exact hperm.mem_iff.mpr (List.mem_map.mpr ⟨(k, p), kvGet_mem hk, rfl⟩)
    refine ⟨?_, ?_, ?_, ?_, ?_⟩
    · intro k t' dl' hk
      rw [hclean, ft k, if_pos (hmemk k (t', dl') hk), hk]
    · intro k hk
      rw [hclean, ft k]
      split
      · rw [hk]
      · exact hk
    · intro u v t' dl' hv hexp huid
      rw [hclean, fu u v, hv]
      simp [hmemk v (t', dl') hv, hexp, huid]
    · intro u v t' dl' hv hcond
      rw [hclean, fu u v, hv]
      simp only [ite_eq_right_iff]
      intro hc
      exact absurd ⟨hc.2.1, hc.2.2⟩ hcond
    · intro u v hv
      rw [hclean, fu u v, hv]

/-- A live transcription created at time 0 (expires at 0 + 24h in ms). -/
def c7Trans : Transcription :=
  { transcriptionId := "t1", userId := "u", originalFilename := "a.webm",
    fileSize := 10, mimeType := "audio/webm", duration := none, text := "",
    confidence := none, language := none, status := .processing,
    processingTime := none, errorMessage := none, purpose := none,
    relatedEntityId := none, relatedEntityType := none,
    createdAt := 0, completedAt := none, expiresAt := 86400000 }

/-- An already-expired transcription (expiresAt 500 ms). -/
def c7TransOld : Transcription :=
  { transcriptionId := "t2", userId := "u", originalFilename := "b.webm",
    fileSize := 10, mimeType := "audio/webm", duration := none, text := "",
    confidence := none, language := none, status := .processing,
    processingTime := none, errorMessage := none, purpose := none,
    relatedEntityId := none, relatedEntityType := none,
    createdAt := 0, completedAt := none, expiresAt := 500 }

def c7Store : TranscriptionStore :=
  { trans := [("t1", (c7Trans, 86400000))],
    userTrans := [(("u", "t1"), ("t1", 86400000))] }

def c7SweepStore : TranscriptionStore :=
  { trans := [("t1", (c7Trans, 86400000)), ("t2", (c7TransOld, 500))],
    userTrans := [(("u", "t1"), ("t1", 86400000)), (("u", "t2"), ("t2", 500))] }

def c7Updates : UpdateTranscriptionInput :=
  { text := some "hello", confidence := none, language := none, duration := none,
    status := some .completed, processingTime := none, errorMessage := none }

/-- C7 witness: updating the live record at t = 1000 ms keeps expiresAt,
and the sweep at t = 1000 ms removes exactly the expired record and its
owner-index entry while leaving the live one in place. -/
theorem spec_c7_witness :
    (transcriptionUpdate c7Store "t1" c7Updates 1000).2.map Transcription.expiresAt
      = .ok c7Trans.expiresAt ∧
    kvGet (cleanupExpired c7SweepStore 1000).trans "t2"
      = (if c7TransOld.expiresAt ≤ 1000 then none else some (c7TransOld, 500)) ∧
    kvGet (cleanupExpired c7SweepStore 1000).userTrans ("u", "t2") = none ∧
    kvGet (cleanupExpired c7SweepStore 1000).trans "t1"
      = (if c7Trans.expiresAt ≤ 1000 then none else some (c7Trans, 86400000)) := by
  have h := spec_c7_expiry c7Store "t1" c7Trans 86400000 c7Updates 1000 (by decide) (by decide)
  have hs := h.2 c7SweepStore 1000 (by decide) (by decide) (by decide)
  exact ⟨h.1.1,
    hs.1 "t2" c7TransOld 500 (by decide),
    hs.2.2.1 "u" "t2" c7TransOld 500 (by decide) (by decide) (by decide),
    hs.1 "t1" c7Trans 86400000 (by decide)⟩

/-- A stable sort leaves an already-ascending list unchanged: the
insertion step only compares against the head, which never precedes the
inserted element. -/
theorem stableSortBy_of_chain (lt : α → α → Bool) :
    ∀ (l : List α), List.Chain' (fun a b => lt b a = false) l → stableSortBy lt l = l := by
  intro l
  induction l with
  | nil => intro _; rfl
  | cons x xs ih =>
    intro hch
    show insertStable lt x (stableSortBy lt xs) = x :: xs
    rw [ih hch.tail]
    cases xs with
    | nil => rfl
    | cons y ys =>
      rw [insertStable]
      rw [(List.chain'_cons.mp hch).1]
      simp

/-- Lookup skips a block of entries whose keys all differ from the key. -/
theorem kvGet_append_of_not_mem [DecidableEq κ] {m1 m2 : List (κ × α)} {k : κ}
    (h : k ∉ m1.map Prod.fst) : kvGet (m1 ++ m2) k = kvGet m2 k := by
  induction m1 with
  | nil => rfl
  | cons hd tl ih =>
    obtain ⟨k', v'⟩ := hd
    simp only [List.map_cons, List.mem_cons, not_or] at h
    rw [List.cons_append, kvGet, if_neg (fun he => h.1 he.symm)]
    exact ih h.2

/-- A cleanup step only ever removes record entries. -/
theorem cleanupStep_trans_subset (now : Nat) (s : TranscriptionStore) (k : String) :
    ∀ e ∈ (cleanupStep now s k).trans, e ∈ s.trans := by
  intro e he
  match hK : kvGet s.trans k with
  | none =>
    rw [show cleanupStep now s k = s from by simp only [cleanupStep, hK]] at he
    exact he
  | some (t, dl) =>
    by_cases hexp : t.expiresAt ≤ now
    · rw [show cleanupStep now s k = (transcriptionDelete s t.transcriptionId).1 from by
        simp only [cleanupStep, hK]; rw [if_pos hexp]] at he
      match hG : transcriptionGetById s t.transcriptionId with
      | .error err =>
        rw [show (transcriptionDelete s t.transcriptionId).1 = s from by
          simp only [transcriptionDelete, hG]] at he
        exact he
      | .ok t' =>
        rw [show (transcriptionDelete s t.transcriptionId).1 =
            { s with trans := kvDel s.trans t.transcriptionId,
                     userTrans := kvDel s.userTrans (t'.userId, t.transcriptionId) } from by
          simp only [transcriptionDelete, hG]] at he
        exact kvDel_subset e he
    · rw [show cleanupStep now s k = s from by
        simp only [cleanupStep, hK]; rw [if_neg hexp]] at he
      exact he

/-- A cleanup step at key k leaves the record and owner-index entries of
every other key untouched (given records keyed by their own id). -/
theorem cleanupStep_other (now : Nat) (s : TranscriptionStore) (k k' u : String)
    (hwf : ∀ e ∈ s.trans, e.2.1.transcriptionId = e.1) (hne : k ≠ k') :
    kvGet (cleanupStep now s k).trans k' = kvGet s.trans k' ∧
    kvGet (cleanupStep now s k).userTrans (u, k') = kvGet s.userTrans (u, k') := by
  match hK : kvGet s.trans k with
  | none =>
    rw [show cleanupStep now s k = s from by simp only [cleanupStep, hK]]
    exact ⟨rfl, rfl⟩
  | some (t, dl) =>
    have htid : t.transcriptionId = k := hwf _ (kvGet_mem hK)
    by_cases hexp : t.expiresAt ≤ now
    · rw [show cleanupStep now s k =
          { s with trans := kvDel s.trans k, userTrans := kvDel s.userTrans (t.userId, k) }
        from by
          simp only [cleanupStep, hK]
          rw [if_pos hexp]
          simp only [transcriptionDelete, transcriptionGetById, htid, hK]]
      refine ⟨kvGet_del_ne _ _ _ hne, kvGet_del_ne _ _ _ ?_⟩
      simp only [ne_eq, Prod.mk.injEq, not_and]
      exact fun _ h => hne h
    · rw [show cleanupStep now s k = s from by
        simp only [cleanupStep, hK]; rw [if_neg hexp]]
      exact ⟨rfl, rfl⟩

/-- A whole cleanup pass leaves the record and owner-index entries of
every unlisted key untouched. -/
theorem cleanup_fold_other (now : Nat) (keys : List String) :
    ∀ (s : TranscriptionStore), (∀ e ∈ s.trans, e.2.1.transcriptionId = e.1) →
    ∀ k u, k ∉ keys →
    kvGet (keys.foldl (cleanupStep now) s).trans k = kvGet s.trans k ∧
    kvGet (keys.foldl (cleanupStep now) s).userTrans (u, k) = kvGet s.userTrans (u, k) := by
  induction keys with
  | nil => intro s _ k u _; exact ⟨rfl, rfl⟩
  | cons k₀ rest ih =>
    intro s hwf k u hk
    rw [List.foldl_cons]
    have hne : k₀ ≠ k := fun h => hk (h ▸ List.mem_cons_self _ _)
    have hwf1 : ∀ e ∈ (cleanupStep now s k₀).trans, e.2.1.transcriptionId = e.1 :=
      fun e he => hwf e (cleanupStep_trans_subset now s k₀ e he)
    have hrest := ih (cleanupStep now s k₀) hwf1 k u (fun h => hk (List.mem_cons_of_mem _ h))
    have hstep := cleanupStep_other now s k₀ k u hwf hne
    exact ⟨hrest.1.trans hstep.1, hrest.2.trans hstep.2⟩

/-- Decimal digit character (code 48 + d mod 10). -/
def digitChar (d : Nat) : Char := Char.ofNat (48 + d % 10)

/-- The i-th filler key: "a" followed by three decimal digits, so the
keys nkey 0, ..., nkey 999 are pairwise distinct and ascend in store key
order, all before "zz". -/
def nkey (i : Nat) : String :=
  String.mk ['a', digitChar (i / 100), digitChar (i / 10), digitChar i]

/-- Bool-valued check that a list ascends strictly: no element precedes
its predecessor under lt. -/
def ascBy (lt : α → α → Bool) : List α → Bool
  | x :: y :: rest => !(lt y x) && ascBy lt (y :: rest)
  | _ => true

/-- The stable sort leaves an ascending list unchanged: each insertion
step compares only against the head, which never precedes the inserted
element. -/
theorem stableSortBy_of_asc (lt : α → α → Bool) :
    ∀ l, ascBy lt l = true → stableSortBy lt l = l := by
  intro l
  induction l with
  | nil => intro _; rfl
  | cons x xs ih =>
    intro h
    show insertStable lt x (stableSortBy lt xs) = x :: xs
    cases xs with
    | nil => rfl
    | cons y ys =>
      rw [ascBy] at h
      simp only [Bool.and_eq_true, Bool.not_eq_true'] at h
      rw [ih h.2, insertStable, h.1]
      simp

/-- A live filler record under key k. -/
def fillerRec (k : String) : Transcription :=
  { transcriptionId := k, userId := "u", originalFilename := "f", fileSize := 1,
    mimeType := "audio/webm", duration := none, text := "", confidence := none,
    language := none, status := .processing, processingTime := none,
    errorMessage := none, purpose := none, relatedEntityId := none,
    relatedEntityType := none, createdAt := 0, completedAt := none,
    expiresAt := 86400000 }

/-- The expired record of the C7 counterexample, keyed "zz" so that it
sorts after every filler key. -/
def c7OldBig : Transcription := { c7TransOld with transcriptionId := "zz" }

/-- A store of 1001 records: 1000 live fillers whose keys all precede
"zz" in store key order, plus the long-expired record at "zz".  The
sweep's kv.list call returns at most 1000 keys, so "zz" is never
listed. -/
def c7BigStore : TranscriptionStore :=
  { trans := (List.range 1000).map (fun i => (nkey i, (fillerRec (nkey i), 86400000)))
      ++ [("zz", (c7OldBig, 500))],
    userTrans := ((List.range 1000).map (fun i => (("u", nkey i), (nkey i, 86400000))))
      ++ [(("u", "zz"), ("zz", 500))] }

set_option maxRecDepth 4000 in
/-- C7.  The claim states the defensive sweep deletes exactly those
records whose expiresAt is at or before the current time, along with
their owner-index entries.  Counterexample: the code lists at most 1000
record keys (kv.list limit 1000, interaction.repository.ts), so in this
1001-record store the record at key "zz" — expired 500 ms after epoch,
swept at t = 1000 ms — survives the sweep together with its owner-index
entry, although its expiresAt is before the sweep time. -/
theorem spec_c7_counterexample :
    c7OldBig.expiresAt ≤ 1000 ∧
    kvGet (cleanupExpired c7BigStore 1000).trans "zz" = some (c7OldBig, 500) ∧
    kvGet (cleanupExpired c7BigStore 1000).userTrans ("u", "zz") = some ("zz", 500) := by
  have hzz : ∀ i, nkey i ≠ "zz" := by
    intro i h
    have hd := congrArg (fun s => s.data.length) h
    simp [nkey] at hd
  have hnotinA : "zz" ∉ (List.range 1000).map nkey := by
    intro hmem
    obtain ⟨i, -, hi⟩ := List.mem_map.mp hmem
    exact hzz i hi
  have hmapkeys : c7BigStore.trans.map (fun e => e.1)
      = (List.range 1000).map nkey ++ ["zz"] := by
    simp [c7BigStore, List.map_map, Function.comp]
  have hasc : ascBy strLt ((List.range 1000).map nkey ++ ["zz"]) = true := by decide
  have hlenA : ((List.range 1000).map nkey).length = 1000 := by simp
  have hkeys : (stableSortBy strLt (c7BigStore.trans.map (fun e => e.1))).take 1000
      = (List.range 1000).map nkey := by
    rw [hmapkeys, stableSortBy_of_asc strLt _ hasc]
    exact List.take_left' hlenA
  have hclean : cleanupExpired c7BigStore 1000
      = ((List.range 1000).map nkey).foldl (cleanupStep 1000) c7BigStore := by
    simp only [cleanupExpired]
    rw [hkeys]
  have hwfB : ∀ e ∈ c7BigStore.trans, e.2.1.transcriptionId = e.1 := by
    intro e he
    simp only [c7BigStore] at he
    rcases List.mem_append.mp he with h | h
    · obtain ⟨i, -, hi⟩ := List.mem_map.mp h
      rw [← hi]
      rfl
    · simp only [List.mem_singleton] at h
      rw [h]
      rfl
  have hpres := cleanup_fold_other 1000 ((List.range 1000).map nkey) c7BigStore hwfB
    "zz" "u" hnotinA
  have hgetT : kvGet c7BigStore.trans "zz" = some (c7OldBig, 500) := by
    have hnm : "zz" ∉ ((List.range 1000).map
        (fun i => (nkey i, (fillerRec (nkey i), 86400000)))).map Prod.fst := by
      simp only [List.map_map]
      intro hmem
      obtain ⟨i, -, hi⟩ := List.mem_map.mp hmem
      exact hzz i hi
    show kvGet ((List.range 1000).map (fun i => (nkey i, (fillerRec (nkey i), 86400000)))
      ++ [("zz", (c7OldBig, 500))]) "zz" = some (c7OldBig, 500)
    rw [kvGet_append_of_not_mem hnm]
    simp [kvGet]
  have hgetU : kvGet c7BigStore.userTrans ("u", "zz") = some ("zz", 500) := by
    have hnm : ("u", "zz") ∉ ((List.range 1000).map
        (fun i => (("u", nkey i), (nkey i, 86400000)))).map Prod.fst := by
      simp only [List.map_map]
      intro hmem
      obtain ⟨i, -, hi⟩ := List.mem_map.mp hmem
      exact hzz i (congrArg Prod.snd hi)
    show kvGet (((List.range 1000).map (fun i => (("u", nkey i), (nkey i, 86400000))))
      ++ [(("u", "zz"), ("zz", 500))]) ("u", "zz") = some ("zz", 500)
    rw [kvGet_append_of_not_mem hnm]
    simp [kvGet]
  refine ⟨by decide, ?_, ?_⟩
  · rw [hclean, hpres.1, hgetT]
  · rw [hclean, hpres.2, hgetU]
